import Mathlib

/-!
Formal model of the crosswalk-building engine in
scripts/build_crosswalks.py of MODA-NYC/nyc-geography-crosswalks:
name-based dissolving, candidate prefiltering by bounding box, denoised
polygon intersection, area thresholding, and the longform/wide output
projections.

The planar-geometry toolkit (shapely) and the bounding-box index
(the GeoDataFrame sindex) are abstracted as the structure GeomOps,
exactly as the design treats them: a capability interface providing
union, intersection, area, buffer and bounds.  Areas are exact
rationals standing for the float areas the library returns.  Following
shapely 2 / geopandas semantics, which the script prefers (it calls
union_all first and falls back to unary_union only on AttributeError),
the union of a nonempty group of possibly-missing geometries is always
a geometry - possibly empty, never null - so the vestigial
None-guards of the script are absorbed into the is_empty checks; and
the spatial index does not contain missing or empty geometries, so a
candidate feature always carries a nonempty geometry.
-/

/-- A bounding box in the planar coordinate system, as returned by
shapely geometry.bounds. -/
structure Box where
  minx : ℚ
  miny : ℚ
  maxx : ℚ
  maxy : ℚ
  deriving DecidableEq, Repr

/-- Bounding boxes intersect in the usual interval-overlap sense; this
is the query semantics of the rtree spatial index. -/
def boxIntersects (a b : Box) : Bool :=
  decide (a.minx ≤ b.maxx) && decide (b.minx ≤ a.maxx) &&
  decide (a.miny ≤ b.maxy) && decide (b.miny ≤ a.maxy)

/-- The planar-geometry toolkit the script uses through shapely:
area, emptiness test, intersection, buffer, group union (shapely 2
union_all over a column that may contain missing values), and
bounding box. -/
structure GeomOps (G : Type) where
  area : G → ℚ
  isEmpty : G → Bool
  inter : G → G → G
  buffer : ℚ → G → G
  unionList : List (Option G) → G
  bounds : G → Box

/-- One record of the unified boundary collection: geography-type id,
group name, geometry (possibly missing).  Rows of dissolved frames are
represented with the same shape, since dissolve_by_name returns
exactly the columns id, nameCol, geometry. -/
structure Feature (G : Type) where
  id : String
  nameCol : String
  geometry : Option G
  deriving DecidableEq, Repr

/-- The distinct nameCol values of a frame in ascending order: pandas
groupby sorts group keys. -/
def sortedNames {G : Type} (geodf : List (Feature G)) : List String :=
  List.insertionSort (· ≤ ·) ((geodf.map Feature.nameCol).dedup)

/-- dissolve_by_name: dissolve features by nameCol keeping the first
non-geo columns; returns rows with columns id, nameCol, geometry
(dissolved).  geopandas dissolve groups by the key in ascending order,
unions each group's geometries and keeps the first id. -/
def dissolve_by_name {G : Type} (ops : GeomOps G) (geodf : List (Feature G)) :
    List (Feature G) :=
  if geodf.isEmpty then []
  else
    (sortedNames geodf).map fun n =>
      let grp := geodf.filter fun f => f.nameCol == n
      { id := (grp.map Feature.id).headD ""
        nameCol := n
        geometry := some (ops.unionList (grp.map Feature.geometry)) }

/-- union_by_name: list of (nameCol, unioned geometry) for the given
subset, one pair per distinct name, names in groupby (ascending)
order. -/
def union_by_name {G : Type} (ops : GeomOps G) (geodf : List (Feature G)) :
    List (String × G) :=
  if geodf.isEmpty then []
  else
    (sortedNames geodf).map fun n =>
      (n, ops.unionList ((geodf.filter fun f => f.nameCol == n).map Feature.geometry))

/-- The candidate preselection list(sindex.intersection(bounds))
followed by iloc: the features of the collection whose (nonempty,
non-missing) geometry has a bounding box intersecting the query box,
in row order. -/
def sindexCandidates {G : Type} (ops : GeomOps G) (all_gdf : List (Feature G))
    (b : Box) : List (Feature G) :=
  all_gdf.filter fun f =>
    match f.geometry with
    | none => false
    | some g => !ops.isEmpty g && boxIntersects (ops.bounds g) b

/-- p_geom_orig.buffer(buffer_feet) if buffer_feet else p_geom_orig:
the de-noising geometry used only in the intersection computation. -/
def bufGeom {G : Type} (ops : GeomOps G) (buffer_feet : ℚ) (g : G) : G :=
  if buffer_feet ≠ 0 then ops.buffer buffer_feet g else g

/-- inter_area = float(inter_geom.area) if not inter_geom.is_empty
else 0.0, for inter_geom the intersection of the two arguments. -/
def interAreaOf {G : Type} (ops : GeomOps G) (p_int t_union : G) : ℚ :=
  let inter_geom := ops.inter p_int t_union
  if ops.isEmpty inter_geom then 0 else ops.area inter_geom

/-- The optional cap on the number of dissolved primaries:
if max_primaries is not None and max_primaries > 0, take the head. -/
def applyCap {α : Type} (l : List α) : Option Int → List α
  | none => l
  | some m => if 0 < m then l.take m.toNat else l

/-- One longform output row, with the columns of the longform CSV. -/
structure OverlapRecord where
  primaryId : String
  primaryName : String
  otherId : String
  otherName : String
  primaryArea : ℚ
  interArea : ℚ
  percentage : ℚ
  deriving DecidableEq, Repr

/-- The comparison relation of the final longform sort_values call:
primary name ascending, then other geography id ascending, then
percentage overlap descending. -/
def RecLE (a b : OverlapRecord) : Prop :=
  a.primaryName < b.primaryName ∨
    (a.primaryName = b.primaryName ∧
      (a.otherId < b.otherId ∨
        (a.otherId = b.otherId ∧ b.percentage ≤ a.percentage)))

instance : DecidableRel RecLE := fun a b => by
  unfold RecLE
  infer_instance

/-- The records contributed to the longform table by one dissolved
primary row: the body of the outer for-loop of
build_longform_for_primary. -/
def longformRecordsFor {G : Type} (ops : GeomOps G) (all_gdf : List (Feature G))
    (primary_id : String) (other_ids : List String)
    (buffer_feet min_intersection_area_final epsilon : ℚ)
    (prow : Feature G) : List OverlapRecord :=
  match prow.geometry with
  | none => []
  | some p_geom_orig =>
    if ops.isEmpty p_geom_orig then []
    else
      let p_area := ops.area p_geom_orig
      if p_area ≤ epsilon then []
      else
        let p_geom_for_intersection := bufGeom ops buffer_feet p_geom_orig
        let candidate_gdf := sindexCandidates ops all_gdf (ops.bounds p_geom_orig)
        other_ids.flatMap fun other_id =>
          if other_id == primary_id then []
          else
            let subset := candidate_gdf.filter fun f => f.id == other_id
            if subset.isEmpty then []
            else
              (union_by_name ops subset).filterMap fun tu =>
                if ops.isEmpty tu.2 then none
                else
                  let inter_area := interAreaOf ops p_geom_for_intersection tu.2
                  if inter_area ≤ max min_intersection_area_final epsilon then none
                  else
                    some { primaryId := primary_id
                           primaryName := prow.nameCol
                           otherId := other_id
                           otherName := tu.1
                           primaryArea := p_area
                           interArea := inter_area
                           percentage := inter_area / p_area * 100 }

/-- build_longform_for_primary: long-form crosswalk for a single
primary geography type, sorted by (primary name asc, other id asc,
percentage desc). -/
def build_longform_for_primary {G : Type} (ops : GeomOps G)
    (all_gdf_2263 : List (Feature G)) (primary_id : String)
    (other_ids : List String)
    (buffer_feet min_intersection_area_final epsilon : ℚ)
    (max_primaries : Option Int) : List OverlapRecord :=
  let primary_src := all_gdf_2263.filter fun f => f.id == primary_id
  if primary_src.isEmpty then []
  else
    let primary_dissolved := applyCap (dissolve_by_name ops primary_src) max_primaries
    let records := primary_dissolved.flatMap
      (longformRecordsFor ops all_gdf_2263 primary_id other_ids buffer_feet
        min_intersection_area_final epsilon)
    List.insertionSort RecLE records

/-- keep_names of the wide build, for one dissolved primary geometry
and one other geography id: the names whose unioned geometry passes
inter_area > max(min_intersection_area_final, epsilon). -/
def wideKeepNames {G : Type} (ops : GeomOps G) (all_gdf : List (Feature G))
    (buffer_feet min_intersection_area_final epsilon : ℚ)
    (p_geom_orig : G) (other_id : String) : List String :=
  let p_geom_for_intersection := bufGeom ops buffer_feet p_geom_orig
  let candidate_gdf := sindexCandidates ops all_gdf (ops.bounds p_geom_orig)
  let subset := candidate_gdf.filter fun f => f.id == other_id
  (union_by_name ops subset).filterMap fun tu =>
    let inter_area := interAreaOf ops p_geom_for_intersection tu.2
    if inter_area > max min_intersection_area_final epsilon then some tu.1 else none

/-- sorted(set(keep_names)): the deduplicated, ascending name set a
wide cell serializes. -/
def cellNameSet (keep_names : List String) : List String :=
  List.insertionSort (· ≤ ·) (keep_names.dedup)

/-- The wide cell value ";".join(sorted(set(keep_names))) if
keep_names else "". -/
def cellString (keep_names : List String) : String :=
  if keep_names.isEmpty then "" else String.intercalate ";" (cellNameSet keep_names)

/-- One row of the wide table: the primary region name (stored in the
record under the primary id column) and one serialized cell per other
geography id, in loop order. -/
structure WideRow where
  primaryName : String
  cells : List (String × String)
  deriving DecidableEq, Repr

/-- The wide-table row contributed by one dissolved primary row: the
body of the outer for-loop of build_wide_for_primary; none when the
row is skipped for a missing or empty geometry. -/
def wideRowFor {G : Type} (ops : GeomOps G) (all_gdf : List (Feature G))
    (primary_id : String) (other_ids : List String)
    (buffer_feet min_intersection_area_final epsilon : ℚ)
    (prow : Feature G) : Option WideRow :=
  match prow.geometry with
  | none => none
  | some p_geom_orig =>
    if ops.isEmpty p_geom_orig then none
    else
      some { primaryName := prow.nameCol
             cells := (other_ids.filter fun oid => !(oid == primary_id)).map
               fun other_id =>
                 (other_id,
                  cellString (wideKeepNames ops all_gdf buffer_feet
                    min_intersection_area_final epsilon p_geom_orig other_id)) }

/-- build_wide_for_primary: wide-format crosswalk for a single primary
geography type, one row per dissolved primary with usable geometry. -/
def build_wide_for_primary {G : Type} (ops : GeomOps G)
    (all_gdf_2263 : List (Feature G)) (primary_id : String)
    (other_ids : List String)
    (buffer_feet min_intersection_area_final epsilon : ℚ)
    (max_primaries : Option Int) : List WideRow :=
  let primary_src := all_gdf_2263.filter fun f => f.id == primary_id
  if primary_src.isEmpty then []
  else
    let primary_dissolved := applyCap (dissolve_by_name ops primary_src) max_primaries
    primary_dissolved.filterMap
      (wideRowFor ops all_gdf_2263 primary_id other_ids buffer_feet
        min_intersection_area_final epsilon)

/-- The per-run artifacts of the main loop: one longform file and one
wide file per primary id, written only when the corresponding table is
non-empty. -/
structure RunOutputs where
  longformFiles : List (String × List OverlapRecord)
  wideFiles : List (String × List WideRow)
  deriving DecidableEq

/-- The per-primary loop of main: build longform and wide for every
requested primary id and keep an output file exactly for the non-empty
tables. -/
def runCrosswalks {G : Type} (ops : GeomOps G) (gdf : List (Feature G))
    (primary_ids target_ids : List String)
    (buffer_feet min_area_final epsilon : ℚ)
    (max_primaries : Option Int) : RunOutputs :=
  { longformFiles := primary_ids.filterMap fun pid =>
      let lf := build_longform_for_primary ops gdf pid target_ids buffer_feet
        min_area_final epsilon max_primaries
      if lf.isEmpty then none else some (s!"longform_{pid}_crosswalk.csv", lf)
    wideFiles := primary_ids.filterMap fun pid =>
      let wf := build_wide_for_primary ops gdf pid target_ids buffer_feet
        min_area_final epsilon max_primaries
      if wf.isEmpty then none else some (s!"wide_{pid}_crosswalk.csv", wf) }

/-!
## A concrete geometry toolkit

Grid geometries instantiate the toolkit for concrete runs: a geometry
is a finite set of unit cells of the plane, area is the cell count,
intersection and union are the set operations, a positive buffer
dilates by one ring of cells, a negative buffer erodes by one ring.
The bounding box is a constant box, modelling an index that prefilters
nothing; an over-approximating prefilter is sound, since downstream
exact intersection removes false positives.
-/

abbrev GridG := Finset (ℤ × ℤ)

def dilate1 (g : GridG) : GridG :=
  g ∪ g.image (fun c => (c.1 + 1, c.2)) ∪ g.image (fun c => (c.1 - 1, c.2)) ∪
    g.image (fun c => (c.1, c.2 + 1)) ∪ g.image (fun c => (c.1, c.2 - 1))

def erode1 (g : GridG) : GridG :=
  g.filter fun c =>
    (c.1 + 1, c.2) ∈ g ∧ (c.1 - 1, c.2) ∈ g ∧ (c.1, c.2 + 1) ∈ g ∧ (c.1, c.2 - 1) ∈ g

def gridUnion (l : List (Option GridG)) : GridG :=
  (l.filterMap id).foldr (· ∪ ·) ∅

def gridOps : GeomOps GridG where
  area g := (g.card : ℚ)
  isEmpty g := decide (g = ∅)
  inter a b := a ∩ b
  buffer d g := if 0 < d then dilate1 g else if d < 0 then erode1 g else g
  unionList := gridUnion
  bounds _ := ⟨0, 0, 1, 1⟩

/-!
## Membership characterizations

The lemmas below rephrase membership in the tables as explicit
conditions mirroring the guards of the script, step by step.
-/

theorem mem_ite_nil_left {α : Type} {c : Prop} [Decidable c] {L : List α} {a : α} :
    (a ∈ if c then ([] : List α) else L) ↔ ¬c ∧ a ∈ L := by
  split <;> simp [*]

theorem ite_none_eq_some {β : Type} {c : Prop} [Decidable c] {v b : β} :
    ((if c then none else some v) = some b) ↔ ¬c ∧ v = b := by
  split <;> simp [*, eq_comm]

theorem applyCap_nil {α : Type} (cap : Option Int) : applyCap ([] : List α) cap = [] := by
  cases cap <;> simp [applyCap]

theorem mem_sortedNames {G : Type} {geodf : List (Feature G)} {n : String} :
    n ∈ sortedNames geodf ↔ ∃ f ∈ geodf, f.nameCol = n := by
  simp [sortedNames, List.mem_insertionSort, List.mem_dedup, List.mem_map]

theorem union_by_name_nil_of_isEmpty {G : Type} {ops : GeomOps G}
    {geodf : List (Feature G)} (h : geodf.isEmpty) : union_by_name ops geodf = [] := by
  unfold union_by_name
  simp [h]

theorem isEmpty_false_of_mem_union_by_name {G : Type} {ops : GeomOps G}
    {geodf : List (Feature G)} {tu : String × G}
    (h : tu ∈ union_by_name ops geodf) : geodf.isEmpty = false := by
  by_cases he : geodf.isEmpty
  · rw [union_by_name_nil_of_isEmpty he] at h
    simp at h
  · simpa using he

theorem mem_union_by_name {G : Type} {ops : GeomOps G} {geodf : List (Feature G)}
    {tu : String × G} :
    tu ∈ union_by_name ops geodf ↔
      tu.1 ∈ sortedNames geodf ∧
        tu.2 = ops.unionList
          ((geodf.filter fun f => f.nameCol == tu.1).map Feature.geometry) := by
  constructor
  · intro h
    have he := isEmpty_false_of_mem_union_by_name h
    unfold union_by_name at h
    rw [he] at h
    simp only [Bool.false_eq_true, if_false, List.mem_map] at h
    obtain ⟨n, hn, heq⟩ := h
    subst heq
    exact ⟨hn, rfl⟩
  · rintro ⟨h1, h2⟩
    obtain ⟨f, hf, -⟩ := mem_sortedNames.mp h1
    have hne : geodf.isEmpty = false := by
      cases geodf with
      | nil => simp at hf
      | cons a l => rfl
    unfold union_by_name
    rw [hne]
    simp only [Bool.false_eq_true, if_false, List.mem_map]
    refine ⟨tu.1, h1, ?_⟩
    rw [← h2]

theorem ite_ite_none_eq_some {β : Type} {c1 c2 : Prop} [Decidable c1] [Decidable c2]
    {v b : β} :
    ((if c1 then none else if c2 then none else some v) = some b) ↔
      ¬c1 ∧ ¬c2 ∧ v = b := by
  by_cases h1 : c1 <;> by_cases h2 : c2 <;> simp [h1, h2]

theorem mem_longformRecordsFor {G : Type} {ops : GeomOps G} {all_gdf : List (Feature G)}
    {primary_id : String} {other_ids : List String}
    {buffer_feet min_final epsilon : ℚ} {prow : Feature G} {r : OverlapRecord} :
    r ∈ longformRecordsFor ops all_gdf primary_id other_ids buffer_feet min_final
        epsilon prow ↔
      ∃ g, prow.geometry = some g ∧ ops.isEmpty g = false ∧ epsilon < ops.area g ∧
        ∃ oid ∈ other_ids, oid ≠ primary_id ∧
          ∃ tu ∈ union_by_name ops
              ((sindexCandidates ops all_gdf (ops.bounds g)).filter fun f => f.id == oid),
            ops.isEmpty tu.2 = false ∧
            max min_final epsilon < interAreaOf ops (bufGeom ops buffer_feet g) tu.2 ∧
            r = { primaryId := primary_id, primaryName := prow.nameCol, otherId := oid,
                  otherName := tu.1, primaryArea := ops.area g,
                  interArea := interAreaOf ops (bufGeom ops buffer_feet g) tu.2,
                  percentage :=
                    interAreaOf ops (bufGeom ops buffer_feet g) tu.2 / ops.area g * 100 } := by
  cases hg : prow.geometry with
  | none => simp [longformRecordsFor, hg]
  | some g =>
    simp only [longformRecordsFor, hg, Option.some.injEq]
    by_cases hE : ops.isEmpty g
    · simp [hE]
    · by_cases hA : ops.area g ≤ epsilon
      · simp [hA, not_lt.mpr hA]
      · rw [if_neg hE, if_neg hA]
        simp only [List.mem_flatMap, mem_ite_nil_left, List.mem_filterMap]
        constructor
        · rintro ⟨oid, hoid, hne, -, tu, htu, hsome⟩
          rw [ite_ite_none_eq_some] at hsome
          obtain ⟨hTU, hTh, hrec⟩ := hsome
          refine ⟨g, rfl, by simpa using hE, not_le.mp hA, oid, hoid,
            by simpa using hne, tu, htu, by simpa using hTU, not_le.mp hTh, hrec.symm⟩
        · rintro ⟨g', hg', hE', hA', oid, hoid, hne, tu, htu, hTU, hTh, hrec⟩
          obtain rfl : g' = g := hg'.symm
          refine ⟨oid, hoid, by simpa using hne, ?_, tu, htu, ?_⟩
          · have := isEmpty_false_of_mem_union_by_name htu
            simp [this]
          · rw [ite_ite_none_eq_some]
            exact ⟨by simp [hTU], not_le.mpr hTh, hrec.symm⟩

theorem mem_build_longform {G : Type} {ops : GeomOps G} {all_gdf : List (Feature G)}
    {primary_id : String} {other_ids : List String}
    {buffer_feet min_final epsilon : ℚ} {cap : Option Int} {r : OverlapRecord} :
    r ∈ build_longform_for_primary ops all_gdf primary_id other_ids buffer_feet
        min_final epsilon cap ↔
      ∃ prow ∈ applyCap
          (dissolve_by_name ops (all_gdf.filter fun f => f.id == primary_id)) cap,
        r ∈ longformRecordsFor ops all_gdf primary_id other_ids buffer_feet min_final
          epsilon prow := by
  unfold build_longform_for_primary
  by_cases hsrc : (all_gdf.filter fun f => f.id == primary_id).isEmpty
  · rw [if_pos hsrc]
    rw [List.isEmpty_iff] at hsrc
    simp [hsrc, dissolve_by_name, applyCap_nil]
  · rw [if_neg hsrc]
    simp [List.mem_insertionSort, List.mem_flatMap]

theorem mem_wideKeepNames {G : Type} {ops : GeomOps G} {all_gdf : List (Feature G)}
    {buffer_feet min_final epsilon : ℚ} {p_geom_orig : G} {other_id : String}
    {n : String} :
    n ∈ wideKeepNames ops all_gdf buffer_feet min_final epsilon p_geom_orig other_id ↔
      ∃ tu ∈ union_by_name ops
          ((sindexCandidates ops all_gdf (ops.bounds p_geom_orig)).filter
            fun f => f.id == other_id),
        tu.1 = n ∧
          max min_final epsilon <
            interAreaOf ops (bufGeom ops buffer_feet p_geom_orig) tu.2 := by
  unfold wideKeepNames
  simp only [List.mem_filterMap]
  constructor
  · rintro ⟨tu, htu, hsome⟩
    by_cases hTh :
        max min_final epsilon < interAreaOf ops (bufGeom ops buffer_feet p_geom_orig) tu.2
    · rw [if_pos hTh, Option.some.injEq] at hsome
      exact ⟨tu, htu, hsome, hTh⟩
    · rw [if_neg hTh] at hsome
      exact absurd hsome (by simp)
  · rintro ⟨tu, htu, hn, hTh⟩
    exact ⟨tu, htu, by rw [if_pos hTh, hn]⟩

theorem mem_cellNameSet {keep_names : List String} {n : String} :
    n ∈ cellNameSet keep_names ↔ n ∈ keep_names := by
  simp [cellNameSet, List.mem_insertionSort, List.mem_dedup]

theorem wideRowFor_eq_some_iff {G : Type} {ops : GeomOps G} {all_gdf : List (Feature G)}
    {primary_id : String} {other_ids : List String}
    {buffer_feet min_final epsilon : ℚ} {prow : Feature G} {row : WideRow} :
    wideRowFor ops all_gdf primary_id other_ids buffer_feet min_final epsilon prow =
        some row ↔
      ∃ g, prow.geometry = some g ∧ ops.isEmpty g = false ∧
        row = { primaryName := prow.nameCol
                cells := (other_ids.filter fun oid => !(oid == primary_id)).map
                  fun other_id =>
                    (other_id,
                     cellString (wideKeepNames ops all_gdf buffer_feet min_final
                       epsilon g other_id)) } := by
  cases hg : prow.geometry with
  | none => simp [wideRowFor, hg]
  | some g =>
    simp only [wideRowFor, hg]
    by_cases hE : ops.isEmpty g
    · simp [hE]
    · rw [if_neg hE]
      simp only [Option.some.injEq]
      constructor
      · rintro rfl
        exact ⟨g, rfl, by simpa using hE, rfl⟩
      · rintro ⟨g', hg', -, hrow⟩
        obtain rfl : g' = g := hg'.symm
        rw [hrow]

theorem mem_build_wide {G : Type} {ops : GeomOps G} {all_gdf : List (Feature G)}
    {primary_id : String} {other_ids : List String}
    {buffer_feet min_final epsilon : ℚ} {cap : Option Int} {row : WideRow} :
    row ∈ build_wide_for_primary ops all_gdf primary_id other_ids buffer_feet
        min_final epsilon cap ↔
      ∃ prow ∈ applyCap
          (dissolve_by_name ops (all_gdf.filter fun f => f.id == primary_id)) cap,
        wideRowFor ops all_gdf primary_id other_ids buffer_feet min_final epsilon
          prow = some row := by
  unfold build_wide_for_primary
  by_cases hsrc : (all_gdf.filter fun f => f.id == primary_id).isEmpty
  · rw [if_pos hsrc]
    rw [List.isEmpty_iff] at hsrc
    simp [hsrc, dissolve_by_name, applyCap_nil]
  · rw [if_neg hsrc]
    simp [List.mem_filterMap]

instance : IsTrans OverlapRecord RecLE := by
  constructor
  intro a b c hab hbc
  unfold RecLE at *
  rcases hab with h1 | ⟨e1, h1⟩
  · rcases hbc with h2 | ⟨e2, h2⟩
    · exact Or.inl (lt_trans h1 h2)
    · exact Or.inl (by rw [← e2]; exact h1)
  · rcases hbc with h2 | ⟨e2, h2⟩
    · exact Or.inl (by rw [e1]; exact h2)
    · refine Or.inr ⟨e1.trans e2, ?_⟩
      rcases h1 with h1 | ⟨f1, h1⟩
      · rcases h2 with h2 | ⟨f2, h2⟩
        · exact Or.inl (lt_trans h1 h2)
        · exact Or.inl (by rw [← f2]; exact h1)
      · rcases h2 with h2 | ⟨f2, h2⟩
        · exact Or.inl (by rw [f1]; exact h2)
        · exact Or.inr ⟨f1.trans f2, le_trans h2 h1⟩

instance : IsTotal OverlapRecord RecLE := by
  constructor
  intro a b
  unfold RecLE
  rcases lt_trichotomy a.primaryName b.primaryName with h | h | h
  · exact Or.inl (Or.inl h)
  · rcases lt_trichotomy a.otherId b.otherId with h2 | h2 | h2
    · exact Or.inl (Or.inr ⟨h, Or.inl h2⟩)
    · rcases le_total b.percentage a.percentage with h3 | h3
      · exact Or.inl (Or.inr ⟨h, Or.inr ⟨h2, h3⟩⟩)
      · exact Or.inr (Or.inr ⟨h.symm, Or.inr ⟨h2.symm, h3⟩⟩)
    · exact Or.inr (Or.inr ⟨h.symm, Or.inl h2⟩)
  · exact Or.inr (Or.inl h)

theorem sortedNames_nodup {G : Type} (geodf : List (Feature G)) :
    (sortedNames geodf).Nodup :=
  (List.perm_insertionSort _ _).nodup_iff.mpr (List.nodup_dedup _)

theorem dissolve_map_nameCol {G : Type} (ops : GeomOps G) (geodf : List (Feature G)) :
    (dissolve_by_name ops geodf).map Feature.nameCol = sortedNames geodf := by
  unfold dissolve_by_name
  by_cases h : geodf.isEmpty
  · rw [if_pos h]
    rw [List.isEmpty_iff] at h
    subst h
    simp [sortedNames]
  · rw [if_neg h, List.map_map]
    simp [Function.comp_def]

theorem applyCap_sublist {α : Type} (l : List α) (cap : Option Int) :
    (applyCap l cap).Sublist l := by
  cases cap with
  | none => exact List.Sublist.refl l
  | some m =>
    show (if 0 < m then l.take m.toNat else l).Sublist l
    by_cases h : 0 < m
    · rw [if_pos h]
      exact List.take_sublist _ l
    · rw [if_neg h]

theorem capped_dissolve_nameCol_nodup {G : Type} (ops : GeomOps G)
    (geodf : List (Feature G)) (cap : Option Int) :
    ((applyCap (dissolve_by_name ops geodf) cap).map Feature.nameCol).Nodup := by
  have h1 : ((dissolve_by_name ops geodf).map Feature.nameCol).Nodup := by
    rw [dissolve_map_nameCol]
    exact sortedNames_nodup geodf
  exact h1.sublist ((applyCap_sublist _ cap).map Feature.nameCol)

/-- C4: the longform table is ordered by primary region name
ascending, then other geography-type id ascending, then percentage
overlap descending: every pair of rows in order satisfies the
lexicographic comparison. -/
theorem longform_rows_ordered {G : Type} (ops : GeomOps G)
    (all_gdf : List (Feature G)) (primary_id : String) (other_ids : List String)
    (buffer_feet min_final epsilon : ℚ) (cap : Option Int) :
    (build_longform_for_primary ops all_gdf primary_id other_ids buffer_feet
        min_final epsilon cap).Pairwise
      (fun a b =>
        a.primaryName < b.primaryName ∨
          (a.primaryName = b.primaryName ∧
            (a.otherId < b.otherId ∨
              (a.otherId = b.otherId ∧ b.percentage ≤ a.percentage)))) := by
  unfold build_longform_for_primary
  by_cases hsrc : (all_gdf.filter fun f => f.id == primary_id).isEmpty
  · rw [if_pos hsrc]
    exact List.Pairwise.nil
  · rw [if_neg hsrc]
    exact (List.sorted_insertionSort RecLE _).imp fun h => h

theorem filterMap_eq_filter_ne {α β : Type} [DecidableEq α] (f : α → Option β) (a0 : α)
    (hf : f a0 = none) :
    ∀ l : List α, l.filterMap f = (l.filter fun x => x != a0).filterMap f := by
  intro l
  induction l with
  | nil => rfl
  | cons a l ih =>
    by_cases ha : a = a0
    · subst ha
      simp [List.filterMap_cons, List.filter_cons, hf, ih]
    · simp [List.filterMap_cons, List.filter_cons, ha, ih]

/-- C10: the optional cap on primary-region count is applied only when
strictly positive; a cap of 0 or a negative value behaves exactly like
passing no cap, in both the longform and the wide build. -/
theorem cap_nonpos_like_none {G : Type} (ops : GeomOps G) (all_gdf : List (Feature G))
    (primary_id : String) (other_ids : List String)
    (buffer_feet min_final epsilon : ℚ) (m : Int) (hm : m ≤ 0) :
    build_longform_for_primary ops all_gdf primary_id other_ids buffer_feet min_final
        epsilon (some m) =
      build_longform_for_primary ops all_gdf primary_id other_ids buffer_feet min_final
        epsilon none ∧
    build_wide_for_primary ops all_gdf primary_id other_ids buffer_feet min_final
        epsilon (some m) =
      build_wide_for_primary ops all_gdf primary_id other_ids buffer_feet min_final
        epsilon none := by
  have hcap : ∀ l : List (Feature G), applyCap l (some m) = applyCap l none := by
    intro l
    show (if 0 < m then l.take m.toNat else l) = l
    rw [if_neg (not_lt.mpr hm)]
  constructor
  · simp only [build_longform_for_primary, hcap]
  · simp only [build_wide_for_primary, hcap]

theorem cap_nonpos_like_none_witness :
    (0 : Int) ≤ 0 ∧
      build_longform_for_primary gridOps
          [⟨"p", "A", some {(0,0),(1,0)}⟩, ⟨"q", "B", some {(2,0)}⟩]
          "p" ["p","q"] 1 0 0 (some 0) =
        build_longform_for_primary gridOps
          [⟨"p", "A", some {(0,0),(1,0)}⟩, ⟨"q", "B", some {(2,0)}⟩]
          "p" ["p","q"] 1 0 0 none :=
  ⟨le_refl 0,
    (cap_nonpos_like_none gridOps
      [⟨"p", "A", some {(0,0),(1,0)}⟩, ⟨"q", "B", some {(2,0)}⟩]
      "p" ["p","q"] 1 0 0 0 (le_refl 0)).1⟩

/-- C7: a requested primary id with zero matching features yields empty
longform and wide tables, hence no output file for that id; the run
equals the run with that id dropped, so all other primary ids are
unaffected; and dissolving an empty feature subset returns an empty
frame rather than failing. -/
theorem missing_primary_id_harmless {G : Type} (ops : GeomOps G)
    (gdf : List (Feature G)) (primary_ids target_ids : List String) (pid : String)
    (buffer_feet min_final epsilon : ℚ) (cap : Option Int)
    (hNo : ∀ f ∈ gdf, f.id ≠ pid) :
    build_longform_for_primary ops gdf pid target_ids buffer_feet min_final epsilon
        cap = [] ∧
    build_wide_for_primary ops gdf pid target_ids buffer_feet min_final epsilon
        cap = [] ∧
    runCrosswalks ops gdf primary_ids target_ids buffer_feet min_final epsilon cap =
      runCrosswalks ops gdf (primary_ids.filter fun q => q != pid) target_ids
        buffer_feet min_final epsilon cap ∧
    dissolve_by_name ops ([] : List (Feature G)) = [] := by
  have hsrc : (gdf.filter fun f => f.id == pid) = [] := by
    rw [List.filter_eq_nil_iff]
    intro f hf
    simpa using hNo f hf
  have hlf : build_longform_for_primary ops gdf pid target_ids buffer_feet min_final
      epsilon cap = [] := by
    unfold build_longform_for_primary
    rw [hsrc]
    rfl
  have hwf : build_wide_for_primary ops gdf pid target_ids buffer_feet min_final
      epsilon cap = [] := by
    unfold build_wide_for_primary
    rw [hsrc]
    rfl
  refine ⟨hlf, hwf, ?_, rfl⟩
  unfold runCrosswalks
  congr 1
  · exact filterMap_eq_filter_ne _ pid (by simp [hlf]) primary_ids
  · exact filterMap_eq_filter_ne _ pid (by simp [hwf]) primary_ids

theorem missing_primary_id_harmless_witness :
    (∀ f ∈ [(⟨"p", "A", some {(0,0),(1,0)}⟩ : Feature GridG),
            ⟨"q", "B", some {(2,0)}⟩], f.id ≠ "z") ∧
      build_longform_for_primary gridOps
          [⟨"p", "A", some {(0,0),(1,0)}⟩, ⟨"q", "B", some {(2,0)}⟩]
          "z" ["p","q"] 1 0 0 none = [] :=
  ⟨by decide,
    (missing_primary_id_harmless gridOps
      [⟨"p", "A", some {(0,0),(1,0)}⟩, ⟨"q", "B", some {(2,0)}⟩]
      ["p","z"] ["p","q"] "z" 1 0 0 none (by decide)).1⟩

/-- C3: every longform record's primary area column and percentage
denominator come from the unbuffered dissolved primary geometry, and
percentage = interArea / primaryArea * 100, for any buffer distance
(including nonzero ones). -/
theorem longform_area_unbuffered {G : Type} (ops : GeomOps G)
    (all_gdf : List (Feature G)) (primary_id : String) (other_ids : List String)
    (buffer_feet min_final epsilon : ℚ) (cap : Option Int) (r : OverlapRecord)
    (hr : r ∈ build_longform_for_primary ops all_gdf primary_id other_ids buffer_feet
      min_final epsilon cap) :
    r.percentage = r.interArea / r.primaryArea * 100 ∧
      ∃ prow ∈ applyCap
          (dissolve_by_name ops (all_gdf.filter fun f => f.id == primary_id)) cap,
        ∃ g, prow.geometry = some g ∧ r.primaryName = prow.nameCol ∧
          r.primaryArea = ops.area g := by
  obtain ⟨prow, hprow, hrec⟩ := mem_build_longform.mp hr
  obtain ⟨g, hg, hE, hA, oid, hoid, hne, tu, htu, hTU, hTh, hreq⟩ :=
    mem_longformRecordsFor.mp hrec
  subst hreq
  exact ⟨rfl, prow, hprow, g, hg, rfl, rfl⟩

theorem longform_area_unbuffered_witness :
    ({ primaryId := "p", primaryName := "A", otherId := "q", otherName := "B",
       primaryArea := 2, interArea := 1, percentage := 50 } : OverlapRecord) ∈
      build_longform_for_primary gridOps
        [⟨"p", "A", some {(0,0),(1,0)}⟩, ⟨"q", "B", some {(2,0)}⟩]
        "p" ["p","q"] 1 0 0 none ∧
    (50 : ℚ) = 1 / 2 * 100 :=
  ⟨by with_unfolding_all decide,
    (longform_area_unbuffered gridOps
      [⟨"p", "A", some {(0,0),(1,0)}⟩, ⟨"q", "B", some {(2,0)}⟩]
      "p" ["p","q"] 1 0 0 none
      { primaryId := "p", primaryName := "A", otherId := "q", otherName := "B",
        primaryArea := 2, interArea := 1, percentage := 50 }
      (by with_unfolding_all decide)).1⟩

/-- C2 counterexample: with epsilon = 1, a dissolved primary region of
unbuffered area 1 ≤ epsilon contributes no longform record, yet the
wide build still emits a row for it, so the region is not skipped in
both output projections. -/
theorem epsilon_skip_divergence :
    gridOps.area ({(0,0)} : GridG) ≤ 1 ∧
    build_longform_for_primary gridOps [⟨"p", "A", some {(0,0)}⟩] "p" ["p","q"]
        0 0 1 none = [] ∧
    build_wide_for_primary gridOps [⟨"p", "A", some {(0,0)}⟩] "p" ["p","q"]
        0 0 1 none = [{ primaryName := "A", cells := [("q", "")] }] := by
  refine ⟨?_, ?_, ?_⟩ <;> with_unfolding_all decide

/-- C2 amended: the degenerate-geometry guard area ≤ epsilon lives only
in the longform path: every longform record's primary area exceeds
epsilon, while the wide build emits a row for every capped dissolved
primary with non-missing, non-empty geometry regardless of its
area. -/
theorem epsilon_guard_longform_only {G : Type} (ops : GeomOps G)
    (all_gdf : List (Feature G)) (primary_id : String) (other_ids : List String)
    (buffer_feet min_final epsilon : ℚ) (cap : Option Int) :
    (∀ r ∈ build_longform_for_primary ops all_gdf primary_id other_ids buffer_feet
        min_final epsilon cap, epsilon < r.primaryArea) ∧
    (∀ prow ∈ applyCap
        (dissolve_by_name ops (all_gdf.filter fun f => f.id == primary_id)) cap,
      ∀ g, prow.geometry = some g → ops.isEmpty g = false →
        ∃ row ∈ build_wide_for_primary ops all_gdf primary_id other_ids buffer_feet
            min_final epsilon cap,
          row.primaryName = prow.nameCol) := by
  constructor
  · intro r hr
    obtain ⟨prow, hprow, hrec⟩ := mem_build_longform.mp hr
    obtain ⟨g, hg, hE, hA, oid, hoid, hne, tu, htu, hTU, hTh, hreq⟩ :=
      mem_longformRecordsFor.mp hrec
    subst hreq
    exact hA
  · intro prow hprow g hg hE
    refine ⟨_, mem_build_wide.mpr ⟨prow, hprow,
      wideRowFor_eq_some_iff.mpr ⟨g, hg, hE, rfl⟩⟩, rfl⟩

/-- C9: the wide build emits one row for every capped dissolved primary
region with non-missing, non-empty geometry, even when every cell of
the row is empty; consequently the wide table can be non-empty for a
primary type whose longform table is empty. -/
theorem wide_row_emitted_per_region :
    (∀ (G : Type) (ops : GeomOps G) (all_gdf : List (Feature G)) (primary_id : String)
        (other_ids : List String) (buffer_feet min_final epsilon : ℚ)
        (cap : Option Int),
      ∀ prow ∈ applyCap
          (dissolve_by_name ops (all_gdf.filter fun f => f.id == primary_id)) cap,
        ∀ g, prow.geometry = some g → ops.isEmpty g = false →
          { primaryName := prow.nameCol
            cells := (other_ids.filter fun oid => !(oid == primary_id)).map
              fun other_id =>
                (other_id,
                 cellString (wideKeepNames ops all_gdf buffer_feet min_final epsilon
                   g other_id)) } ∈
            build_wide_for_primary ops all_gdf primary_id other_ids buffer_feet
              min_final epsilon cap) ∧
    build_wide_for_primary gridOps [⟨"p", "A", some {(0,0)}⟩] "p" ["p","q"]
        0 100 0 none = [{ primaryName := "A", cells := [("q", "")] }] ∧
    build_longform_for_primary gridOps [⟨"p", "A", some {(0,0)}⟩] "p" ["p","q"]
        0 100 0 none = [] := by
  refine ⟨?_, ?_, ?_⟩
  · intro G ops all_gdf primary_id other_ids buffer_feet min_final epsilon cap
      prow hprow g hg hE
    exact mem_build_wide.mpr ⟨prow, hprow, wideRowFor_eq_some_iff.mpr ⟨g, hg, hE, rfl⟩⟩
  · with_unfolding_all decide
  · with_unfolding_all decide

/-- C5: threshold monotonicity: for m1 ≤ m2, every longform row
produced at minimum final area m2 is also produced at m1, and every
wide cell name set at m2 is contained in the one at m1, for the same
collection, buffer and epsilon. -/
theorem threshold_monotone {G : Type} (ops : GeomOps G) (all_gdf : List (Feature G))
    (primary_id : String) (other_ids : List String) (buffer_feet epsilon : ℚ)
    (cap : Option Int) (m1 m2 : ℚ) (hm : m1 ≤ m2) :
    (∀ r ∈ build_longform_for_primary ops all_gdf primary_id other_ids buffer_feet m2
        epsilon cap,
      r ∈ build_longform_for_primary ops all_gdf primary_id other_ids buffer_feet m1
        epsilon cap) ∧
    (∀ (g : G) (oid n : String),
      n ∈ cellNameSet (wideKeepNames ops all_gdf buffer_feet m2 epsilon g oid) →
      n ∈ cellNameSet (wideKeepNames ops all_gdf buffer_feet m1 epsilon g oid)) := by
  have hmax : max m1 epsilon ≤ max m2 epsilon := max_le_max hm (le_refl epsilon)
  constructor
  · intro r hr
    rw [mem_build_longform] at hr ⊢
    obtain ⟨prow, hprow, hrec⟩ := hr
    rw [mem_longformRecordsFor] at hrec
    obtain ⟨g, hg, hE, hA, oid, hoid, hne, tu, htu, hTU, hTh, hreq⟩ := hrec
    exact ⟨prow, hprow, mem_longformRecordsFor.mpr
      ⟨g, hg, hE, hA, oid, hoid, hne, tu, htu, hTU, lt_of_le_of_lt hmax hTh, hreq⟩⟩
  · intro g oid n hn
    rw [mem_cellNameSet, mem_wideKeepNames] at hn ⊢
    obtain ⟨tu, htu, hn1, hTh⟩ := hn
    exact ⟨tu, htu, hn1, lt_of_le_of_lt hmax hTh⟩

theorem threshold_monotone_witness :
    (0 : ℚ) ≤ 1 ∧
      ∀ r ∈ build_longform_for_primary gridOps
          [⟨"p", "A", some {(0,0),(1,0)}⟩, ⟨"q", "B", some {(2,0)}⟩]
          "p" ["p","q"] 1 1 0 none,
        r ∈ build_longform_for_primary gridOps
          [⟨"p", "A", some {(0,0),(1,0)}⟩, ⟨"q", "B", some {(2,0)}⟩]
          "p" ["p","q"] 1 0 0 none :=
  ⟨by norm_num,
    (threshold_monotone gridOps
      [⟨"p", "A", some {(0,0),(1,0)}⟩, ⟨"q", "B", some {(2,0)}⟩]
      "p" ["p","q"] 1 0 none 0 1 (by norm_num)).1⟩

/-- C6 counterexample: with negative minimum-final-area and epsilon
parameters, the longform build emits a row whose percentage overlap is
not strictly positive (a disjoint pair passes the negative threshold
with intersection area 0, giving percentage 0). -/
theorem percentage_zero_possible :
    ∃ r ∈ build_longform_for_primary gridOps
        [⟨"p", "A", some {(0,0)}⟩, ⟨"q", "B", some {(5,5)}⟩] "p" ["p","q"]
        0 (-1) (-1) none,
      ¬ 0 < r.percentage := by
  with_unfolding_all decide

/-- C6 amended: provided the epsilon area floor is nonnegative (and
areas are nonnegative, as for planar geometry), every longform row has
strictly positive percentage overlap; and when the buffer distance is
0 (and intersection area never exceeds the first argument's area, as
for planar geometry), the percentage is at most 100, exactly. -/
theorem percentage_bounds {G : Type} (ops : GeomOps G) (all_gdf : List (Feature G))
    (primary_id : String) (other_ids : List String)
    (buffer_feet min_final epsilon : ℚ) (cap : Option Int)
    (hEps : 0 ≤ epsilon) (hArea : ∀ g : G, 0 ≤ ops.area g) :
    ∀ r ∈ build_longform_for_primary ops all_gdf primary_id other_ids buffer_feet
        min_final epsilon cap,
      0 < r.percentage ∧
        (buffer_feet = 0 →
          (∀ a b : G, ops.area (ops.inter a b) ≤ ops.area a) →
          r.percentage ≤ 100) := by
  intro r hr
  obtain ⟨prow, hprow, hrec⟩ := mem_build_longform.mp hr
  obtain ⟨g, hg, hE, hA, oid, hoid, hne, tu, htu, hTU, hTh, hreq⟩ :=
    mem_longformRecordsFor.mp hrec
  subst hreq
  have hpa : 0 < ops.area g := lt_of_le_of_lt hEps hA
  have hia : 0 < interAreaOf ops (bufGeom ops buffer_feet g) tu.2 :=
    lt_of_le_of_lt (le_trans hEps (le_max_right min_final epsilon)) hTh
  constructor
  · have h1 : 0 < interAreaOf ops (bufGeom ops buffer_feet g) tu.2 / ops.area g :=
      div_pos hia hpa
    simpa using mul_pos h1 (by norm_num : (0:ℚ) < 100)
  · intro hb hInter
    have hbg : bufGeom ops buffer_feet g = g := by simp [bufGeom, hb]
    have hle : interAreaOf ops (bufGeom ops buffer_feet g) tu.2 ≤ ops.area g := by
      rw [hbg]
      show (if ops.isEmpty (ops.inter g tu.2) then (0:ℚ)
            else ops.area (ops.inter g tu.2)) ≤ ops.area g
      by_cases hie : ops.isEmpty (ops.inter g tu.2)
      · rw [if_pos hie]
        exact hArea g
      · rw [if_neg hie]
        exact hInter g tu.2
    have h1 : interAreaOf ops (bufGeom ops buffer_feet g) tu.2 / ops.area g ≤ 1 :=
      (div_le_one hpa).mpr hle
    have h2 : interAreaOf ops (bufGeom ops buffer_feet g) tu.2 / ops.area g * 100 ≤
        1 * 100 := mul_le_mul_of_nonneg_right h1 (by norm_num)
    simpa using h2

theorem percentage_bounds_witness :
    (0 : ℚ) ≤ 0 ∧ (∀ g : GridG, 0 ≤ gridOps.area g) ∧
      ∀ r ∈ build_longform_for_primary gridOps
          [⟨"p", "A", some {(0,0),(1,0)}⟩, ⟨"q", "B", some {(2,0)}⟩]
          "p" ["p","q"] 0 0 0 none,
        0 < r.percentage :=
  ⟨le_refl 0, fun g => Nat.cast_nonneg g.card,
    fun r hr =>
      (percentage_bounds gridOps
        [⟨"p", "A", some {(0,0),(1,0)}⟩, ⟨"q", "B", some {(2,0)}⟩]
        "p" ["p","q"] 0 0 0 none (le_refl 0) (fun g => Nat.cast_nonneg g.card)
        r hr).1⟩

theorem mem_sindexCandidates {G : Type} {ops : GeomOps G} {all_gdf : List (Feature G)}
    {b : Box} {f : Feature G} :
    f ∈ sindexCandidates ops all_gdf b ↔
      f ∈ all_gdf ∧ ∃ g, f.geometry = some g ∧ ops.isEmpty g = false ∧
        boxIntersects (ops.bounds g) b = true := by
  unfold sindexCandidates
  rw [List.mem_filter]
  refine and_congr_right fun _ => ?_
  cases hg : f.geometry with
  | none => simp [hg]
  | some g => simp [hg, Bool.and_eq_true, Bool.not_eq_true']

theorem grid_subset_gridUnion {g : GridG} :
    ∀ {l : List (Option GridG)}, some g ∈ l → g ⊆ gridUnion l := by
  intro l
  induction l with
  | nil =>
    intro h
    simp at h
  | cons x t ih =>
    intro hmem
    rcases List.mem_cons.mp hmem with heq | hmem2
    · rw [← heq]
      exact Finset.subset_union_left
    · cases x with
      | none => exact ih hmem2
      | some a => exact (ih hmem2).trans Finset.subset_union_right

theorem gridOps_unionList_isEmpty_false :
    ∀ l : List (Option GridG), (∃ g, some g ∈ l ∧ gridOps.isEmpty g = false) →
      gridOps.isEmpty (gridOps.unionList l) = false := by
  rintro l ⟨g, hg, hne⟩
  have hgne : g ≠ ∅ := by simpa [gridOps] using hne
  have hsub : g ⊆ gridUnion l := grid_subset_gridUnion hg
  have hune : gridUnion l ≠ ∅ := by
    intro h0
    exact hgne (Finset.subset_empty.mp (by rw [← h0]; exact hsub))
  simpa [gridOps] using hune

/-- C8: null or empty geometries are skipped at the single feature or
union level and never abort the surrounding loops: every longform
record and every wide row stems from a dissolved primary with
non-missing, non-empty geometry; and (given that a group union
containing a non-empty geometry is non-empty, as for planar geometry)
every target name-union formed from spatial-index candidates is
non-empty, so neither output path ever meets a null or empty target
union. -/
theorem empty_geometry_skipped {G : Type} (ops : GeomOps G)
    (all_gdf : List (Feature G)) (primary_id : String) (other_ids : List String)
    (buffer_feet min_final epsilon : ℚ) (cap : Option Int)
    (hU : ∀ l : List (Option G), (∃ g, some g ∈ l ∧ ops.isEmpty g = false) →
      ops.isEmpty (ops.unionList l) = false) :
    (∀ r ∈ build_longform_for_primary ops all_gdf primary_id other_ids buffer_feet
        min_final epsilon cap,
      ∃ prow ∈ applyCap
          (dissolve_by_name ops (all_gdf.filter fun f => f.id == primary_id)) cap,
        r.primaryName = prow.nameCol ∧
          ∃ g, prow.geometry = some g ∧ ops.isEmpty g = false) ∧
    (∀ row ∈ build_wide_for_primary ops all_gdf primary_id other_ids buffer_feet
        min_final epsilon cap,
      ∃ prow ∈ applyCap
          (dissolve_by_name ops (all_gdf.filter fun f => f.id == primary_id)) cap,
        row.primaryName = prow.nameCol ∧
          ∃ g, prow.geometry = some g ∧ ops.isEmpty g = false) ∧
    (∀ (b : Box) (oid : String),
      ∀ tu ∈ union_by_name ops
          ((sindexCandidates ops all_gdf b).filter fun f => f.id == oid),
        ops.isEmpty tu.2 = false) := by
  refine ⟨?_, ?_, ?_⟩
  · intro r hr
    obtain ⟨prow, hprow, hrec⟩ := mem_build_longform.mp hr
    obtain ⟨g, hg, hE, hA, oid, hoid, hne, tu, htu, hTU, hTh, hreq⟩ :=
      mem_longformRecordsFor.mp hrec
    subst hreq
    exact ⟨prow, hprow, rfl, g, hg, hE⟩
  · intro row hrow
    obtain ⟨prow, hprow, hsome⟩ := mem_build_wide.mp hrow
    obtain ⟨g, hg, hE, hrow2⟩ := wideRowFor_eq_some_iff.mp hsome
    subst hrow2
    exact ⟨prow, hprow, rfl, g, hg, hE⟩
  · intro b oid tu htu
    obtain ⟨hn, h2⟩ := mem_union_by_name.mp htu
    obtain ⟨f, hf, hfn⟩ := mem_sortedNames.mp hn
    have hfc : f ∈ sindexCandidates ops all_gdf b := (List.mem_filter.mp hf).1
    obtain ⟨-, g, hg, hE, -⟩ := mem_sindexCandidates.mp hfc
    rw [h2]
    apply hU
    refine ⟨g, ?_, hE⟩
    rw [← hg]
    apply List.mem_map_of_mem
    rw [List.mem_filter]
    exact ⟨hf, by simp [hfn]⟩

theorem empty_geometry_skipped_witness :
    (∀ l : List (Option GridG), (∃ g, some g ∈ l ∧ gridOps.isEmpty g = false) →
      gridOps.isEmpty (gridOps.unionList l) = false) ∧
    ∀ (b : Box) (oid : String),
      ∀ tu ∈ union_by_name gridOps
          ((sindexCandidates gridOps
              [⟨"p", "A", some {(0,0),(1,0)}⟩, ⟨"q", "B", some {(2,0)}⟩] b).filter
            fun f => f.id == oid),
        gridOps.isEmpty tu.2 = false :=
  ⟨gridOps_unionList_isEmpty_false,
    (empty_geometry_skipped gridOps
      [⟨"p", "A", some {(0,0),(1,0)}⟩, ⟨"q", "B", some {(2,0)}⟩]
      "p" ["p","q"] 1 0 0 none gridOps_unionList_isEmpty_false).2.2⟩

/-- C1 counterexample: with a positive buffer and epsilon = 1, a
primary region of unbuffered area 1 ≤ epsilon is skipped entirely by
the longform build, yet its buffered geometry clears the threshold
against a neighbouring region of the other type, whose name therefore
appears in that primary's wide cell: the two projections diverge in
membership for identical parameters. -/
theorem longform_wide_membership_divergence :
    build_longform_for_primary gridOps
        [⟨"p", "A", some {(0,0)}⟩, ⟨"q", "B", some {(1,0),(0,1)}⟩] "p" ["p","q"]
        1 0 1 none = [] ∧
    ∃ row ∈ build_wide_for_primary gridOps
        [⟨"p", "A", some {(0,0)}⟩, ⟨"q", "B", some {(1,0),(0,1)}⟩] "p" ["p","q"]
        1 0 1 none,
      row.primaryName = "A" ∧ ("q", "B") ∈ row.cells := by
  constructor
  · with_unfolding_all decide
  · with_unfolding_all decide

/-- C1 amended: longform membership always implies that the record's
other-region name appears in the wide cell of the matching dissolved
primary and other id; conversely, a name in a wide cell yields a
longform record whenever the primary's unbuffered area exceeds epsilon
and that name's target union is non-empty.  Both directions are gated
by the shared predicate interArea > max(minAreaFinal, epsilon); the
two extra provisos are exactly the longform-only guards at which the
projections can diverge. -/
theorem longform_wide_membership_agreement {G : Type} (ops : GeomOps G)
    (all_gdf : List (Feature G)) (primary_id : String) (other_ids : List String)
    (buffer_feet min_final epsilon : ℚ) (cap : Option Int) :
    (∀ r ∈ build_longform_for_primary ops all_gdf primary_id other_ids buffer_feet
        min_final epsilon cap,
      ∃ prow ∈ applyCap
          (dissolve_by_name ops (all_gdf.filter fun f => f.id == primary_id)) cap,
        ∃ g, prow.geometry = some g ∧ prow.nameCol = r.primaryName ∧
          r.otherName ∈ cellNameSet
            (wideKeepNames ops all_gdf buffer_feet min_final epsilon g r.otherId)) ∧
    (∀ prow ∈ applyCap
        (dissolve_by_name ops (all_gdf.filter fun f => f.id == primary_id)) cap,
      ∀ g, prow.geometry = some g → ops.isEmpty g = false → epsilon < ops.area g →
        ∀ oid ∈ other_ids, oid ≠ primary_id →
          ∀ n, n ∈ cellNameSet
              (wideKeepNames ops all_gdf buffer_feet min_final epsilon g oid) →
            (∀ tu ∈ union_by_name ops
                ((sindexCandidates ops all_gdf (ops.bounds g)).filter
                  fun f => f.id == oid),
              tu.1 = n → ops.isEmpty tu.2 = false) →
            ∃ r ∈ build_longform_for_primary ops all_gdf primary_id other_ids
                buffer_feet min_final epsilon cap,
              r.primaryName = prow.nameCol ∧ r.otherId = oid ∧ r.otherName = n) := by
  constructor
  · intro r hr
    obtain ⟨prow, hprow, hrec⟩ := mem_build_longform.mp hr
    obtain ⟨g, hg, hE, hA, oid, hoid, hne, tu, htu, hTU, hTh, hreq⟩ :=
      mem_longformRecordsFor.mp hrec
    subst hreq
    refine ⟨prow, hprow, g, hg, rfl, ?_⟩
    rw [mem_cellNameSet, mem_wideKeepNames]
    exact ⟨tu, htu, rfl, hTh⟩
  · intro prow hprow g hg hE hA oid hoid hne n hn hNU
    rw [mem_cellNameSet, mem_wideKeepNames] at hn
    obtain ⟨tu, htu, htn, hTh⟩ := hn
    have hTU : ops.isEmpty tu.2 = false := hNU tu htu htn
    exact ⟨_, mem_build_longform.mpr ⟨prow, hprow,
      mem_longformRecordsFor.mpr
        ⟨g, hg, hE, hA, oid, hoid, hne, tu, htu, hTU, hTh, rfl⟩⟩,
      rfl, rfl, htn⟩
